import Mathlib

/-!
Shallow embedding of the session subsystem of candango/httpok
(packages `session` and `security`), together with theorems settling
the spec claims about it.

Conventions of the embedding:
* Go `time.Time` and `time.Duration` are both modelled as `Int`
  (nanoseconds); the current instant is passed explicitly as a `now`
  parameter to every operation that calls `time.Now()` or
  `time.Since`.
* Go `[]byte` is modelled as `List Nat` (one `Nat` per byte).
* A Go map (and the session directory of `FileStore`) is modelled as a
  function `String → Option _`; map assignment is pointwise update and
  `delete` is pointwise erasure, which is the extensional behaviour of
  the Go map under the store's single lock.
* Go methods returning `error` return `Option String` (`none` = nil
  error) next to their updated state; methods whose result can be an
  error return `Except String _`.
* The `context.Context` parameters are not modelled: no operation of
  the modelled code inspects its context.
-/

namespace Httpok

/-- Bytes of a Go `[]byte` value. -/
def Bytes := List Nat

instance : DecidableEq Bytes := by
  unfold Bytes
  infer_instance

/-- Go `[]byte(v)` for a string `v` (UTF-8 bytes). -/
def stringToBytes (v : String) : Bytes :=
  v.toUTF8.toList.map (fun b => b.toNat)

/-- Go `string(val)` for a byte slice. The claims never depend on the
text produced, only on when the conversion happens, so bytes are mapped
back through codepoints. -/
def bytesToString (b : Bytes) : String :=
  String.mk (b.map Char.ofNat)

/-! ## MemoryStore (src/session/memory.go) -/

/-- `memoryEntry` stores session value and its last updated time. -/
structure memoryEntry where
  value : Bytes
  lastTouched : Int
deriving DecidableEq

/-- `memoryEntry.Expired`: true if the session is older than `maxAge`
(`time.Since(e.LastTouched) > maxAge`). -/
def memoryEntryExpired (now : Int) (e : memoryEntry) (maxAge : Int) : Bool :=
  now - e.lastTouched > maxAge

/-- The key → entry mapping held by a `MemoryStore`. -/
def MemoryStore := String → Option memoryEntry

/-- Go map assignment `s.data[id] = e`. -/
def msUpdate (s : MemoryStore) (id : String) (e : memoryEntry) : MemoryStore :=
  fun k => if k = id then some e else s k

/-- `MemoryStore.Start` is a no-op returning a nil error. -/
def msStart (_ : MemoryStore) : Option String := none

/-- `MemoryStore.Stop` is a no-op returning a nil error. -/
def msStop (_ : MemoryStore) : Option String := none

/-- `MemoryStore.Delete`: removes any entry for the given id, nil error. -/
def msDelete (s : MemoryStore) (id : String) : MemoryStore × Option String :=
  ((fun k => if k = id then none else s k), none)

/-- `MemoryStore.Exists`: true if the id is present, nil error. -/
def msExists (s : MemoryStore) (id : String) : Bool × Option String :=
  ((s id).isSome, none)

/-- `MemoryStore.Get`: value for the id or a "not found" error. -/
def msGet (s : MemoryStore) (id : String) : Except String Bytes :=
  match s id with
  | some e => .ok e.value
  | none => .error "not found"

/-- `MemoryStore.GetString`: `string(Get(id))`. -/
def msGetString (s : MemoryStore) (id : String) : Except String String :=
  match msGet s id with
  | .ok val => .ok (bytesToString val)
  | .error e => .error e

/-- `MemoryStore.Set`: stores the value with `LastTouched = time.Now()`,
nil error. -/
def msSet (now : Int) (s : MemoryStore) (id : String) (val : Bytes) :
    MemoryStore × Option String :=
  (msUpdate s id ⟨val, now⟩, none)

/-- `MemoryStore.SetString`: stores a string value as bytes. -/
def msSetString (now : Int) (s : MemoryStore) (id : String) (val : String) :
    MemoryStore × Option String :=
  msSet now s id (stringToBytes val)

/-- `MemoryStore.Purge`: deletes all entries older than `maxAge`, nil
error. -/
def msPurge (now : Int) (s : MemoryStore) (maxAge : Int) :
    MemoryStore × Option String :=
  ((fun k =>
      match s k with
      | some e => if memoryEntryExpired now e maxAge then none else some e
      | none => none),
   none)

/-- `MemoryStore.Touch`: refreshes `LastTouched` of an existing entry,
"not found" error otherwise. -/
def msTouch (now : Int) (s : MemoryStore) (id : String) :
    MemoryStore × Option String :=
  match s id with
  | none => (s, some "not found")
  | some e => (msUpdate s id { e with lastTouched := now }, none)

/-- Modelled from the spec: `MemoryStore.RequiresPurge` is absent from
the sources under src (only `FileStore.RequiresPurge` survives there);
§3 of the spec fixes it as the static value `true` for backends that
track expiry manually, which the in-memory map does. -/
def msRequiresPurge : Bool := true

/-! ## FileStore (src/unnamed/part_008, current revision)

The state is the session directory: a mapping from file name to file
(content bytes plus modification time).  Writing a file sets its mtime,
`os.Chtimes` resets it, and `Purge` walks every file of the directory.
-/

/-- One file of the session directory: content and modification time. -/
structure fsFile where
  content : Bytes
  mtime : Int
deriving DecidableEq

/-- The session directory contents of a `FileStore`. -/
def FileStoreDir := String → Option fsFile

/-- `filepath.Join(s.Dir, fmt.Sprintf("%s.sess", id))`, relative to the
store directory. -/
def sessFileName (id : String) : String := id ++ ".sess"

/-- Writing (creating or truncating) a file inside the directory. -/
def fsWrite (d : FileStoreDir) (name : String) (f : fsFile) : FileStoreDir :=
  fun k => if k = name then some f else d k

/-- `FileStore.Stop` is a no-op returning a nil error. -/
def fsStop (_ : FileStoreDir) : Option String := none

/-- `FileStore.Delete`: removes the id's file; absent file is a nil
error and no change. -/
def fsDelete (d : FileStoreDir) (id : String) : FileStoreDir × Option String :=
  if (d (sessFileName id)).isSome = false then (d, none)
  else ((fun k => if k = sessFileName id then none else d k), none)

/-- `FileStore.Exists`: whether the id's file exists, nil error. -/
def fsExists (d : FileStoreDir) (id : String) : Bool × Option String :=
  ((d (sessFileName id)).isSome, none)

/-- `FileStore.Get`: file content, or a "session not found" error when
the file is absent. -/
def fsGet (d : FileStoreDir) (id : String) : Except String Bytes :=
  match d (sessFileName id) with
  | none => .error "session not found"
  | some f => .ok f.content

/-- `FileStore.GetString`: `string(Get(id))`. -/
def fsGetString (d : FileStoreDir) (id : String) : Except String String :=
  match fsGet d id with
  | .ok val => .ok (bytesToString val)
  | .error e => .error e

/-- `FileStore.Set`: creates or truncates the id's file and writes the
value; the write stamps the file's mtime with the current time. -/
def fsSet (now : Int) (d : FileStoreDir) (id : String) (val : Bytes) :
    FileStoreDir × Option String :=
  (fsWrite d (sessFileName id) ⟨val, now⟩, none)

/-- `FileStore.SetString`: stores a string value as bytes. -/
def fsSetString (now : Int) (d : FileStoreDir) (id : String) (val : String) :
    FileStoreDir × Option String :=
  fsSet now d id (stringToBytes val)

/-- `FileStore.Purge`: deletes every file of the directory whose
`time.Since(mtime)` exceeds `maxAge`, nil error. -/
def fsPurge (now : Int) (d : FileStoreDir) (maxAge : Int) :
    FileStoreDir × Option String :=
  ((fun k =>
      match d k with
      | some f => if now - f.mtime > maxAge then none else some f
      | none => none),
   none)

/-- `FileStore.RequiresPurge` returns true. -/
def fsRequiresPurge : Bool := true

/-- `FileStore.Touch`: `os.Chtimes(sessFile, now, now)` when the file
exists, "session not found" error (and no file creation) otherwise. -/
def fsTouch (now : Int) (d : FileStoreDir) (id : String) :
    FileStoreDir × Option String :=
  match d (sessFileName id) with
  | none => (d, some "session not found")
  | some f => (fsWrite d (sessFileName id) { f with mtime := now }, none)

/-! ## Session entity (src/session/session.go) -/

/-- The session-destroyed error text of `session.go`. -/
def sessionDestroyedError : String :=
  "the session is already destroyed, renew the session before using it"

/-- The in-memory working copy of one session.  The Go struct's `Ctx`
and `Params` fields are not modelled: no claimed operation reads them.
Values of the `Data` mapping have the caller-chosen type `V`
(Go `map[string]any`). -/
structure Session (V : Type) where
  id : String
  changed : Bool
  data : List (String × V)
  destroyed : Bool
deriving DecidableEq

/-- Go map assignment `s.Data[key] = value` on the association list. -/
def dataInsert {V : Type} (l : List (String × V)) (key : String) (v : V) :
    List (String × V) :=
  (key, v) :: l.filter (fun p => p.1 ≠ key)

/-- Go map lookup `s.Data[key]`. -/
def dataLookup {V : Type} (l : List (String × V)) (key : String) : Option V :=
  (l.find? (fun p => p.1 = key)).map Prod.snd

/-- `Session.Clear`: resets the data mapping and marks the session
changed.  Its Go signature returns no error and the method performs no
`destroyed` check. -/
def sessionClear {V : Type} (s : Session V) : Session V :=
  { s with data := [], changed := true }

/-- `Session.Delete`: fails on a destroyed session; otherwise removes
the key when present and marks the session changed. -/
def sessionDelete {V : Type} (s : Session V) (key : String) :
    Session V × Option String :=
  if s.destroyed then (s, some sessionDestroyedError)
  else ({ s with data := s.data.filter (fun p => p.1 ≠ key), changed := true },
        none)

/-- `Session.Destroy` as far as the session value is concerned: `Clear`
then `Destroyed = true`.  (The subsequent engine write goes through the
context and does not alter the session value.) -/
def sessionDestroy {V : Type} (s : Session V) : Session V :=
  { sessionClear s with destroyed := true }

/-- `Session.Get`: fails on a destroyed session; otherwise the value or
`nil` when absent, nil error either way. -/
def sessionGet {V : Type} (s : Session V) (key : String) :
    Option V × Option String :=
  if s.destroyed then (none, some sessionDestroyedError)
  else (dataLookup s.data key, none)

/-- `Session.Has`: fails on a destroyed session; otherwise key
presence. -/
def sessionHas {V : Type} (s : Session V) (key : String) :
    Bool × Option String :=
  if s.destroyed then (false, some sessionDestroyedError)
  else ((dataLookup s.data key).isSome, none)

/-- `Session.Set`: fails on a destroyed session; otherwise assigns the
key and marks the session changed. -/
def sessionSet {V : Type} (s : Session V) (key : String) (v : V) :
    Session V × Option String :=
  if s.destroyed then (s, some sessionDestroyedError)
  else ({ s with data := dataInsert s.data key v, changed := true }, none)

/-- The session-state operations, for quantifying over everything a
caller can do to one session value. -/
inductive SessionOp (V : Type) where
  | clear
  | del (key : String)
  | destroyOp
  | get (key : String)
  | has (key : String)
  | set (key : String) (v : V)

/-- The session value after one operation. -/
def sessionStep {V : Type} (s : Session V) : SessionOp V → Session V
  | .clear => sessionClear s
  | .del key => (sessionDelete s key).1
  | .destroyOp => sessionDestroy s
  | .get _ => s
  | .has _ => s
  | .set key v => (sessionSet s key v).1

/-! ## security.RandomString (src/security/random.go) -/

/-- The character set of `RandomString`: ASCII lower case, ASCII upper
case and the digit string `"012345679"` of the source (61 runes). -/
def randomChars : List Char :=
  ("abcdefghijklmnopqrstuvwxyz" ++ "ABCDEFGHIJKLMNOPQRSTUVWXYZ" ++
   "012345679").toList

/-- `security.RandomString(s)`.  The draws of `rand.Intn(len(chars))`
from the global `math/rand` source are modelled as an explicit stream
`draws`; each is reduced into range like `Intn` guarantees.  (The
source's `rand.NewSource(time.Now().UnixNano())` call discards its
result and therefore does not appear in the model.) -/
def securityRandomString (draws : Nat → Nat) (s : Nat) : String :=
  String.mk ((List.range s).map
    (fun i => randomChars.getD (draws i % randomChars.length) ' '))

/-! ## StoreEngine (src/unnamed/part_009)

The engine is modelled over a `MemoryStore` backend (the store used by
the repository's engine tests); the pluggable `Encoder` interface is a
pair of function fields.  `purgeDone` is the state of the stop-signal
channel: `none` while the Go field is nil, `some false` once created
and open, `some true` if it were ever closed.  `purgeTasksLaunched`
counts how many times `go e.periodicPurge(ctx)` has run, so that the
at-most-one-task property can be stated. -/

/-- `EngineProperties` of the engine.  The `Name` and the key-namespace
field are carried but unused by the modelled operations; the `Logger`
field is dropped (logging has no modelled effect). -/
structure EngineProperties (V : Type) where
  ageLimit : Int
  enabled : Bool
  encode : List (String × V) → Except String Bytes
  decode : Bytes → Except String (List (String × V))
  name : String
  keyNamespace : String
  purgeDuration : Int

/-- The state of one `StoreEngine` instance. -/
structure StoreEngine (V : Type) where
  properties : EngineProperties V
  store : MemoryStore
  purgeDone : Option Bool
  purgeTasksLaunched : Nat
  started : Bool
  /-- the embedded store's static `RequiresPurge()` answer -/
  storeRequiresPurge : Bool

/-- `NewStoreEngine`: fresh instance — not yet started, nil `purgeDone`
channel, no purge task launched.  The properties are whatever the
defaults plus the `WithProperties` option produce, so they are taken as
an argument; the backend is a `MemoryStore` state. -/
def newStoreEngine {V : Type} (props : EngineProperties V)
    (store : MemoryStore) (rp : Bool) : StoreEngine V :=
  { properties := props
    store := store
    purgeDone := none
    purgeTasksLaunched := 0
    started := false
    storeRequiresPurge := rp }

/-- `StoreEngine.NewId`: `security.RandomString(60)`. -/
def storeEngineNewId (draws : Nat → Nat) : String :=
  securityRandomString draws 60

/-- `StoreEngine.Start`: errors when already started; otherwise marks
the engine started, and when the store requires purging creates the
`purgeDone` channel and launches the periodic purge task, then
delegates to `Store.Start`. -/
def storeEngineStart {V : Type} (e : StoreEngine V) :
    StoreEngine V × Option String :=
  if e.started then (e, some "store engine already started")
  else
    let e1 : StoreEngine V := { e with started := true }
    let e2 : StoreEngine V :=
      if e1.storeRequiresPurge then
        { e1 with purgeDone := some false
                  purgeTasksLaunched := e1.purgeTasksLaunched + 1 }
      else e1
    (e2, msStart e2.store)

/-- `StoreEngine.Stop`: delegates to `Store.Stop` and nothing else — in
particular no field of the engine changes and the `purgeDone` channel
is not closed. -/
def storeEngineStop {V : Type} (e : StoreEngine V) :
    StoreEngine V × Option String :=
  (e, msStop e.store)

/-- `StoreEngine.Purge`: errors when the engine is disabled, without
reaching the backend; otherwise forwards to
`Store.Purge(ctx, ageLimit)`. -/
def storeEnginePurge {V : Type} (now : Int) (e : StoreEngine V) :
    StoreEngine V × Option String :=
  if e.properties.enabled = false then (e, some "engine is disabled")
  else
    let r := msPurge now e.store e.properties.ageLimit
    ({ e with store := r.1 }, r.2)

/-- The tail of `StoreEngine.GetSession` after the first-touch
initialization: `Get` the bytes, `Touch` the id, `Decode` and build the
fresh `Session` value, from the store state `s1` the initialization
left behind. -/
def getSessionRead {V : Type} (now : Int) (e : StoreEngine V) (id : String)
    (s1 : MemoryStore) : StoreEngine V × Except String (Session V) :=
  match msGet s1 id with
  | .error er => ({ e with store := s1 }, .error er)
  | .ok data =>
    match msTouch now s1 id with
    | (s2, some er) => ({ e with store := s2 }, .error er)
    | (s2, none) =>
      match e.properties.decode data with
      | .error er => ({ e with store := s2 }, .error er)
      | .ok v =>
        ({ e with store := s2 },
         .ok { id := id, changed := false, data := v, destroyed := false })

/-- `StoreEngine.GetSession`, mirroring the source's statement order:
disabled check, empty-id check, `Exists`, first-touch creation through
`Encode`/`Set` (the `Set` error is discarded, as in the source), then
`Get`, `Touch`, `Decode` and the fresh `Session` value via
`getSessionRead`. -/
def storeEngineGetSession {V : Type} (now : Int) (e : StoreEngine V)
    (id : String) : StoreEngine V × Except String (Session V) :=
  if e.properties.enabled = false then (e, .error "engine is disabled")
  else if id = "" then (e, .error "session id is empty")
  else
    match msExists e.store id with
    | (_, some er) => (e, .error er)
    | (ok, none) =>
      if ok = false then
        match e.properties.encode [] with
        | .error er => (e, .error er)
        | .ok data => getSessionRead now e id (msSet now e.store id data).1
      else getSessionRead now e id e.store

/-- `StoreEngine.SessionExists`: gated by `enabled`, then
`Store.Exists`. -/
def storeEngineSessionExists {V : Type} (e : StoreEngine V) (id : String) :
    Bool × Option String :=
  if e.properties.enabled = false then (false, some "engine is disabled")
  else msExists e.store id

/-- `StoreEngine.SaveSession`: disabled and empty-id checks, then
`Encode` and `Store.Set`. -/
def storeEngineSaveSession {V : Type} (now : Int) (e : StoreEngine V)
    (id : String) (s : Session V) : StoreEngine V × Option String :=
  if e.properties.enabled = false then (e, some "engine is disabled")
  else if id = "" then (e, some "session id is empty")
  else
    match e.properties.encode s.data with
    | .error er => (e, some er)
    | .ok data =>
      let r := msSet now e.store id data
      ({ e with store := r.1 }, r.2)

/-- The engine-level operations a caller can invoke on one instance,
each tagged with the instant at which it runs. -/
inductive EngOp (V : Type) where
  | startOp
  | stopOp
  | purgeOp (now : Int)
  | getSessionOp (now : Int) (id : String)
  | saveSessionOp (now : Int) (id : String) (s : Session V)
  | sessionExistsOp (id : String)

/-- The engine state after one operation. -/
def engStep {V : Type} (e : StoreEngine V) : EngOp V → StoreEngine V
  | .startOp => (storeEngineStart e).1
  | .stopOp => (storeEngineStop e).1
  | .purgeOp now => (storeEnginePurge now e).1
  | .getSessionOp now id => (storeEngineGetSession now e id).1
  | .saveSessionOp now id s => (storeEngineSaveSession now e id s).1
  | .sessionExistsOp _ => e

/-- The engine state after a sequence of operations. -/
def engRun {V : Type} (e : StoreEngine V) : List (EngOp V) → StoreEngine V
  | [] => e
  | op :: ops => engRun (engStep e op) ops

/-! ### The periodic purge task (`StoreEngine.periodicPurge`)

One loop iteration wakes on exactly one of the three `select` arms:
the ticker fired, the `purgeDone` channel fired, or the context was
cancelled.  An execution of the task is a sequence of such wake-ups. -/

/-- One wake-up of the `select` loop of `periodicPurge`. -/
inductive PurgeEvent where
  | tick (now : Int)
  | stopSignal
  | ctxCancel

/-- One iteration of the loop body: a tick runs `e.Purge(ctx)` and,
error or not, keeps looping (an error is only logged); the stop signal
and the context cancellation both return from the task.  The `Bool`
tells whether the task returned. -/
def periodicPurgeStep {V : Type} (e : StoreEngine V) :
    PurgeEvent → StoreEngine V × Bool
  | .tick now => ((storeEnginePurge now e).1, false)
  | .stopSignal => (e, true)
  | .ctxCancel => (e, true)

/-- Running the task over a sequence of wake-ups, stopping at the first
terminating one.  Returns the engine state and whether the task has
returned. -/
def periodicPurgeRun {V : Type} (e : StoreEngine V) :
    List PurgeEvent → StoreEngine V × Bool
  | [] => (e, false)
  | ev :: evs =>
    match periodicPurgeStep e ev with
    | (e1, true) => (e1, true)
    | (e1, false) => periodicPurgeRun e1 evs

/-- Whether a wake-up terminates the task. -/
def purgeEventTerminates : PurgeEvent → Bool
  | .tick _ => false
  | .stopSignal => true
  | .ctxCancel => true

/-! ## Concrete fixtures

A small concrete encoder instance (value type `Nat`), concrete stores
and engines, used to evaluate the theorems on explicit inputs. -/

/-- One data pair as bytes: key length, key codepoints, value. -/
def encPair (p : String × Nat) : Bytes :=
  let kb : List Nat := stringToBytes p.1
  kb.length :: (kb ++ [p.2])

/-- A concrete `Encoder.Encode` instance for `Nat`-valued data. -/
def testEncode (d : List (String × Nat)) : Except String Bytes :=
  .ok ((d.map encPair).flatten)

/-- Fuel-driven parser for `testEncode`'s output. -/
def decPairs : Nat → Bytes → Except String (List (String × Nat))
  | _, [] => .ok []
  | 0, _ :: _ => .error "decode failed"
  | fuel + 1, len :: rest =>
    match rest.drop len with
    | v :: rest2 =>
      match decPairs fuel rest2 with
      | .ok tl => .ok ((bytesToString (rest.take len), v) :: tl)
      | .error e => .error e
    | [] => .error "decode failed"

/-- A concrete `Encoder.Decode` instance for `Nat`-valued data. -/
def testDecode (b : Bytes) : Except String (List (String × Nat)) :=
  decPairs b.length b

/-- Concrete engine properties. -/
def testProps : EngineProperties Nat :=
  { ageLimit := 3600
    enabled := true
    encode := testEncode
    decode := testDecode
    name := "HTTPOKSESSID"
    keyNamespace := "httpok:session"
    purgeDuration := 120 }

/-- A concrete memory store holding one entry at key `"foo"`. -/
def testStore : MemoryStore :=
  fun k => if k = "foo" then some ⟨[0, 2], 0⟩ else none

/-- A concrete session directory holding one file for id `"foo"`. -/
def testDir : FileStoreDir :=
  fun n => if n = sessFileName "foo" then some ⟨[3], 0⟩ else none

/-- A concrete started engine over `testStore`. -/
def testEngine : StoreEngine Nat :=
  { properties := testProps
    store := testStore
    purgeDone := some false
    purgeTasksLaunched := 1
    started := true
    storeRequiresPurge := true }

/-- `testEngine` with the feature flag off. -/
def testEngineDisabled : StoreEngine Nat :=
  { testEngine with properties := { testProps with enabled := false } }

/-- A concrete destroyed session still holding a data pair. -/
def destroyedSession : Session Nat :=
  { id := "sid", changed := false, data := [("k", 7)], destroyed := true }

/-! ## Theorems -/

/-- Claim C3: on both backends, `Set(ctx, k, v)` returns no error and a
following `Get(ctx, k)` returns exactly `v` with no error. -/
theorem set_get_roundtrip (now : Int) (s : MemoryStore) (d : FileStoreDir)
    (k : String) (v : Bytes) :
    (msSet now s k v).2 = none ∧
    msGet (msSet now s k v).1 k = .ok v ∧
    (fsSet now d k v).2 = none ∧
    fsGet (fsSet now d k v).1 k = .ok v := by
  refine ⟨rfl, ?_, rfl, ?_⟩
  · simp [msGet, msSet, msUpdate]
  · simp [fsGet, fsSet, fsWrite]

/-- Claim C10: every `MemoryStore` operation among Set, SetString,
Delete, Exists, Purge, Start and Stop returns a nil error on every
input, while Get, GetString and Touch fail exactly when the key is
absent ("not found") and succeed when it is present. -/
theorem memoryStore_error_contract (now maxAge : Int) (s : MemoryStore)
    (id : String) (v : Bytes) (vs : String) :
    msStart s = none ∧
    msStop s = none ∧
    (msSet now s id v).2 = none ∧
    (msSetString now s id vs).2 = none ∧
    (msDelete s id).2 = none ∧
    (msExists s id).2 = none ∧
    (msPurge now s maxAge).2 = none ∧
    (s id = none →
      msGet s id = .error "not found" ∧
      msGetString s id = .error "not found" ∧
      msTouch now s id = (s, some "not found")) ∧
    (∀ e, s id = some e →
      msGet s id = .ok e.value ∧
      msGetString s id = .ok (bytesToString e.value) ∧
      (msTouch now s id).2 = none) := by
  refine ⟨rfl, rfl, rfl, rfl, rfl, rfl, rfl, ?_, ?_⟩
  · intro h
    refine ⟨?_, ?_, ?_⟩ <;> simp [msGet, msGetString, msTouch, h]
  · intro e h
    refine ⟨?_, ?_, ?_⟩ <;> simp [msGet, msGetString, msTouch, h]

/-- Witness for claim C10: the contract evaluated on a concrete store
at a present and at an absent key. -/
theorem memoryStore_error_contract_witness :
    msGet testStore "bar" = .error "not found" ∧
    msTouch 5 testStore "bar" = (testStore, some "not found") ∧
    msGet testStore "foo" = .ok [0, 2] ∧
    (msTouch 5 testStore "foo").2 = none ∧
    (msSet 5 testStore "foo" [9]).2 = none := by
  have h := memoryStore_error_contract 5 3600 testStore "bar" [9] "x"
  have h2 := memoryStore_error_contract 5 3600 testStore "foo" [9] "x"
  obtain ⟨-, -, -, -, -, -, -, habs, -⟩ := h
  obtain ⟨-, -, hset, -, -, -, -, -, hpres⟩ := h2
  have ha := habs (by decide)
  have hp := hpres ⟨[0, 2], 0⟩ (by decide)
  exact ⟨ha.1, ha.2.2, hp.1, hp.2.2, hset⟩

/-- Claim C5: on both backends, `Touch` of an absent key returns the
not-found error and leaves the state exactly as it was (no entry, no
file is created); `Touch` of a present key succeeds, resets only the
expiry clock of that key, keeps its stored value, and leaves every
other key untouched. -/
theorem touch_contract (now : Int) (s : MemoryStore) (d : FileStoreDir)
    (k : String) :
    (s k = none → msTouch now s k = (s, some "not found")) ∧
    (∀ e, s k = some e →
      (msTouch now s k).2 = none ∧
      (msTouch now s k).1 k = some ⟨e.value, now⟩ ∧
      ∀ k', k' ≠ k → (msTouch now s k).1 k' = s k') ∧
    (d (sessFileName k) = none →
      fsTouch now d k = (d, some "session not found")) ∧
    (∀ f, d (sessFileName k) = some f →
      (fsTouch now d k).2 = none ∧
      (fsTouch now d k).1 (sessFileName k) = some ⟨f.content, now⟩ ∧
      ∀ n, n ≠ sessFileName k → (fsTouch now d k).1 n = d n) := by
  refine ⟨?_, ?_, ?_, ?_⟩
  · intro h
    simp [msTouch, h]
  · intro e h
    refine ⟨?_, ?_, ?_⟩
    · simp [msTouch, h]
    · simp [msTouch, h, msUpdate]
    · intro k' hk
      simp [msTouch, h, msUpdate, hk]
  · intro h
    simp [fsTouch, h]
  · intro f h
    refine ⟨?_, ?_, ?_⟩
    · simp [fsTouch, h]
    · simp [fsTouch, h, fsWrite]
    · intro n hn
      simp [fsTouch, h, fsWrite, hn]

/-- Witness for claim C5: `Touch` evaluated on concrete stores at an
absent key (state unchanged, error) and at the present key `"foo"`
(clock refreshed to 5, value kept). -/
theorem touch_contract_witness :
    msTouch 5 testStore "bar" = (testStore, some "not found") ∧
    (msTouch 5 testStore "foo").1 "foo" = some ⟨[0, 2], 5⟩ ∧
    fsTouch 5 testDir "bar" = (testDir, some "session not found") ∧
    (fsTouch 5 testDir "foo").1 (sessFileName "foo") = some ⟨[3], 5⟩ := by
  have habs := touch_contract 5 testStore testDir "bar"
  have hpres := touch_contract 5 testStore testDir "foo"
  refine ⟨habs.1 (by decide), (hpres.2.1 ⟨[0, 2], 0⟩ (by decide)).2.1,
    habs.2.2.1 (by decide), (hpres.2.2.2 ⟨[3], 0⟩ (by decide)).2.1⟩

/-- Claim C2: on both backends, `Purge(ctx, maxAge)` removes exactly
the entries whose time since last touch strictly exceeds `maxAge`: a
strictly older entry (file) is deleted, one touched within `maxAge`
survives unchanged, absent keys stay absent, and a `Touch` at `now`
followed by a `Purge` at most `maxAge` later keeps the key. -/
theorem purge_contract (now now2 maxAge : Int) (s : MemoryStore)
    (d : FileStoreDir) (k : String) (n : String) :
    (∀ e, s k = some e → now - e.lastTouched > maxAge →
      (msPurge now s maxAge).1 k = none) ∧
    (∀ e, s k = some e → now - e.lastTouched ≤ maxAge →
      (msPurge now s maxAge).1 k = some e) ∧
    (s k = none → (msPurge now s maxAge).1 k = none) ∧
    (∀ e, s k = some e → now2 - now ≤ maxAge →
      (msPurge now2 (msTouch now s k).1 maxAge).1 k = some ⟨e.value, now⟩) ∧
    (∀ f, d n = some f → now - f.mtime > maxAge →
      (fsPurge now d maxAge).1 n = none) ∧
    (∀ f, d n = some f → now - f.mtime ≤ maxAge →
      (fsPurge now d maxAge).1 n = some f) ∧
    (d n = none → (fsPurge now d maxAge).1 n = none) ∧
    (∀ f, d (sessFileName k) = some f → now2 - now ≤ maxAge →
      (fsPurge now2 (fsTouch now d k).1 maxAge).1 (sessFileName k) =
        some ⟨f.content, now⟩) := by
  refine ⟨?_, ?_, ?_, ?_, ?_, ?_, ?_, ?_⟩
  · intro e h hexp
    simp [msPurge, h, memoryEntryExpired, hexp]
  · intro e h hfresh
    simp [msPurge, h, memoryEntryExpired, not_lt.mpr hfresh]
  · intro h
    simp [msPurge, h]
  · intro e h hfresh
    simp [msTouch, h, msUpdate, msPurge, memoryEntryExpired,
      not_lt.mpr hfresh]
  · intro f h hexp
    simp [fsPurge, h, hexp]
  · intro f h hfresh
    simp [fsPurge, h, not_lt.mpr hfresh]
  · intro h
    simp [fsPurge, h]
  · intro f h hfresh
    simp [fsTouch, h, fsWrite, fsPurge, not_lt.mpr hfresh]

/-- Witness for claim C2: the spec's concrete scenario on both
backends — `"foo"` last touched at time 0, purged with `maxAge` 3600
at time 7200 (two hours later, expired, removed) and at time 1800
(fresh, kept); touching at 7000 saves it from the purge at 7200. -/
theorem purge_contract_witness :
    (msPurge 7200 testStore 3600).1 "foo" = none ∧
    (msPurge 1800 testStore 3600).1 "foo" = some ⟨[0, 2], 0⟩ ∧
    (msPurge 7200 (msTouch 7000 testStore "foo").1 3600).1 "foo" =
      some ⟨[0, 2], 7000⟩ ∧
    (fsPurge 7200 testDir 3600).1 (sessFileName "foo") = none ∧
    (fsPurge 1800 testDir 3600).1 (sessFileName "foo") = some ⟨[3], 0⟩ ∧
    (fsPurge 7200 (fsTouch 7000 testDir "foo").1 3600).1
      (sessFileName "foo") = some ⟨[3], 7000⟩ := by
  have hold := purge_contract 7200 7200 3600 testStore testDir "foo"
    (sessFileName "foo")
  have hfresh := purge_contract 1800 1800 3600 testStore testDir "foo"
    (sessFileName "foo")
  have htouch := purge_contract 7000 7200 3600 testStore testDir "foo"
    (sessFileName "foo")
  refine ⟨hold.1 ⟨[0, 2], 0⟩ (by decide) (by decide),
    hfresh.2.1 ⟨[0, 2], 0⟩ (by decide) (by decide),
    htouch.2.2.2.1 ⟨[0, 2], 0⟩ (by decide) (by decide),
    (hold.2.2.2.2.1) ⟨[3], 0⟩ (by decide) (by decide),
    (hfresh.2.2.2.2.2.1) ⟨[3], 0⟩ (by decide) (by decide),
    (htouch.2.2.2.2.2.2.2) ⟨[3], 0⟩ (by decide) (by decide)⟩

/-- Counterexample to claim C6 as stated: on a destroyed session whose
data still holds `("k", 7)` and whose `changed` flag is false,
`Session.Clear` does not fail (its Go signature has no error return at
all and the method never checks `Destroyed`) — it empties the data
mapping and flips `changed` to true, mutating both fields the claim
says stay unchanged. -/
theorem destroyed_clear_mutates :
    destroyedSession.destroyed = true ∧
    destroyedSession.changed = false ∧
    destroyedSession.data = [("k", 7)] ∧
    sessionClear destroyedSession =
      { id := "sid", changed := true, data := [], destroyed := true } := by
  refine ⟨rfl, rfl, rfl, rfl⟩

/-- Claim C6 (amended): on a destroyed session, `Set` and `Delete` fail
with the session-destroyed error and leave the session value unchanged;
`Clear`, whose signature has no error return, performs no `destroyed`
check and always empties the data mapping and sets `changed`; and no
session operation ever resets `destroyed` to false. -/
theorem destroyed_session_contract {V : Type} (s : Session V) (key : String)
    (v : V) :
    (s.destroyed = true →
      sessionSet s key v = (s, some sessionDestroyedError) ∧
      sessionDelete s key = (s, some sessionDestroyedError) ∧
      sessionGet s key = (none, some sessionDestroyedError) ∧
      sessionHas s key = (false, some sessionDestroyedError)) ∧
    sessionClear s = { s with data := [], changed := true } ∧
    (∀ op : SessionOp V, s.destroyed = true →
      (sessionStep s op).destroyed = true) := by
  refine ⟨?_, rfl, ?_⟩
  · intro h
    refine ⟨?_, ?_, ?_, ?_⟩ <;>
      simp [sessionSet, sessionDelete, sessionGet, sessionHas, h]
  · intro op h
    cases op <;>
      simp [sessionStep, sessionClear, sessionDelete, sessionDestroy,
        sessionSet, h]

/-- Witness for claim C6 (amended): the contract evaluated on the
concrete destroyed session. -/
theorem destroyed_session_contract_witness :
    sessionSet destroyedSession "x" 1 =
      (destroyedSession, some sessionDestroyedError) ∧
    sessionDelete destroyedSession "k" =
      (destroyedSession, some sessionDestroyedError) ∧
    (sessionStep destroyedSession (.clear)).destroyed = true := by
  have h := destroyed_session_contract destroyedSession "x" 1
  have h2 := destroyed_session_contract destroyedSession "k" (1 : Nat)
  exact ⟨(h.1 rfl).1, (h2.1 rfl).2.1, h.2.2 .clear rfl⟩

/-- Claim C9: whatever the stream of draws the `math/rand` source
produces, `security.RandomString(s)` has exactly `s` characters, and
`StoreEngine.NewId` therefore always returns an identifier of the one
fixed length 60.  (The quality of the source — the claim's "secure
random source" — is settled outside this theorem: the source is
`math/rand`, not a cryptographically secure generator.) -/
theorem newId_fixed_length (draws : Nat → Nat) (s : Nat) :
    (securityRandomString draws s).length = s ∧
    (storeEngineNewId draws).length = 60 := by
  constructor
  · simp [securityRandomString, String.length]
  · simp [storeEngineNewId, securityRandomString, String.length]

/-- Claim C7: `StoreEngine.Purge` on a disabled engine returns the
"engine is disabled" error with the whole engine state — and so the
backend store — untouched; on an enabled engine it returns exactly
`Store.Purge(ctx, ageLimit)` applied to the configured `ageLimit`. -/
theorem enginePurge_spec {V : Type} (now : Int) (e : StoreEngine V) :
    (e.properties.enabled = false →
      storeEnginePurge now e = (e, some "engine is disabled")) ∧
    (e.properties.enabled = true →
      storeEnginePurge now e =
        ({ e with store := (msPurge now e.store e.properties.ageLimit).1 },
         (msPurge now e.store e.properties.ageLimit).2)) := by
  constructor
  · intro h
    simp [storeEnginePurge, h]
  · intro h
    simp [storeEnginePurge, h]

/-- Witness for claim C7: the disabled engine rejects the purge and
keeps its expired entry; the enabled engine's purge removes it. -/
theorem enginePurge_spec_witness :
    storeEnginePurge 7200 testEngineDisabled =
      (testEngineDisabled, some "engine is disabled") ∧
    (storeEnginePurge 7200 testEngine).1.store "foo" = none := by
  have hd := (enginePurge_spec 7200 testEngineDisabled).1 (by decide)
  have he := (enginePurge_spec 7200 testEngine).2 (by decide)
  refine ⟨hd, ?_⟩
  rw [he]
  decide

/-- `getSessionRead` only rewrites the backend store: the lifecycle
flags of the engine are untouched. -/
theorem getSessionRead_shape {V : Type} (now : Int) (e : StoreEngine V)
    (id : String) (s1 : MemoryStore) :
    (getSessionRead now e id s1).1 =
      { e with store := (getSessionRead now e id s1).1.store } := by
  unfold getSessionRead
  repeat' split
  all_goals rfl

/-- `GetSession` only rewrites the backend store: the lifecycle flags
of the engine are untouched. -/
theorem getSession_preserves_flags {V : Type} (now : Int) (e : StoreEngine V)
    (id : String) :
    (storeEngineGetSession now e id).1 =
      { e with store := (storeEngineGetSession now e id).1.store } := by
  unfold storeEngineGetSession
  repeat' split
  any_goals rfl
  all_goals exact getSessionRead_shape now e id _

/-- `SaveSession` only rewrites the backend store: the lifecycle flags
of the engine are untouched. -/
theorem saveSession_preserves_flags {V : Type} (now : Int) (e : StoreEngine V)
    (id : String) (s : Session V) :
    (storeEngineSaveSession now e id s).1 =
      { e with store := (storeEngineSaveSession now e id s).1.store } := by
  unfold storeEngineSaveSession
  repeat' split
  all_goals rfl

/-- One engine operation preserves the launch-count invariant: at most
one purge task launched, and none before the engine is started. -/
theorem engStep_launch_invariant {V : Type} (e : StoreEngine V) (op : EngOp V)
    (h1 : e.purgeTasksLaunched ≤ 1)
    (h2 : e.started = false → e.purgeTasksLaunched = 0) :
    (engStep e op).purgeTasksLaunched ≤ 1 ∧
    ((engStep e op).started = false →
      (engStep e op).purgeTasksLaunched = 0) := by
  cases op with
  | startOp =>
    by_cases hs : e.started
    · simp [engStep, storeEngineStart, hs, h1]
    · have hz := h2 (by simpa using hs)
      by_cases hrp : e.storeRequiresPurge <;>
        simp [engStep, storeEngineStart, hs, hrp, hz]
  | stopOp => exact ⟨h1, h2⟩
  | purgeOp now =>
    rw [show engStep e (.purgeOp now) = (storeEnginePurge now e).1 from rfl]
    unfold storeEnginePurge
    by_cases hen : e.properties.enabled = false
    · rw [if_pos hen]
      exact ⟨h1, h2⟩
    · rw [if_neg hen]
      exact ⟨h1, h2⟩
  | getSessionOp now id =>
    have h := getSession_preserves_flags now e id
    rw [show engStep e (.getSessionOp now id) =
      (storeEngineGetSession now e id).1 from rfl, h]
    exact ⟨h1, h2⟩
  | saveSessionOp now id s =>
    have h := saveSession_preserves_flags now e id s
    rw [show engStep e (.saveSessionOp now id s) =
      (storeEngineSaveSession now e id s).1 from rfl, h]
    exact ⟨h1, h2⟩
  | sessionExistsOp id => exact ⟨h1, h2⟩

/-- The launch-count invariant holds along every operation sequence. -/
theorem engRun_launch_invariant {V : Type} (ops : List (EngOp V)) :
    ∀ e : StoreEngine V, e.purgeTasksLaunched ≤ 1 →
      (e.started = false → e.purgeTasksLaunched = 0) →
      (engRun e ops).purgeTasksLaunched ≤ 1 := by
  induction ops with
  | nil => intro e h1 _; exact h1
  | cons op ops ih =>
    intro e h1 h2
    have h := engStep_launch_invariant e op h1 h2
    exact ih (engStep e op) h.1 h.2

/-- Claim C4: a first `Start` on an unstarted engine succeeds (nil
error, engine marked started); any `Start` on an already started engine
returns the AlreadyStarted error with the engine state — including the
count of launched purge tasks — completely unchanged; and along every
operation sequence from a fresh `NewStoreEngine` instance at most one
purge task is ever launched. -/
theorem start_at_most_once {V : Type} (props : EngineProperties V)
    (store0 : MemoryStore) (rp : Bool) (e : StoreEngine V)
    (ops : List (EngOp V)) :
    (e.started = false →
      (storeEngineStart e).2 = none ∧ (storeEngineStart e).1.started = true) ∧
    (e.started = true →
      storeEngineStart e = (e, some "store engine already started")) ∧
    (engRun (newStoreEngine props store0 rp) ops).purgeTasksLaunched ≤ 1 := by
  refine ⟨?_, ?_, ?_⟩
  · intro h
    by_cases hrp : e.storeRequiresPurge <;>
      simp [storeEngineStart, h, hrp, msStart]
  · intro h
    simp [storeEngineStart, h]
  · exact engRun_launch_invariant ops (newStoreEngine props store0 rp)
      (by simp [newStoreEngine]) (fun _ => by simp [newStoreEngine])

/-- Witness for claim C4: a fresh engine starts once; starting the
already started `testEngine` fails and changes nothing; a trace that
calls `Start` twice has launched exactly at most one task. -/
theorem start_at_most_once_witness :
    (storeEngineStart (newStoreEngine testProps testStore true)).2 = none ∧
    storeEngineStart testEngine =
      (testEngine, some "store engine already started") ∧
    (engRun (newStoreEngine testProps testStore true)
      [.startOp, .startOp]).purgeTasksLaunched ≤ 1 := by
  have h1 := start_at_most_once testProps testStore true
    (newStoreEngine testProps testStore true) ([] : List (EngOp Nat))
  have h2 := start_at_most_once testProps testStore true testEngine
    [EngOp.startOp, EngOp.startOp]
  exact ⟨(h1.1 (by decide)).1, h2.2.1 (by decide), h2.2.2⟩

/-- The purge task returns exactly when its wake-up sequence contains a
terminating event (the stop signal or the context cancellation). -/
theorem periodicPurgeRun_any {V : Type} (evs : List PurgeEvent) :
    ∀ e : StoreEngine V,
      (periodicPurgeRun e evs).2 = evs.any purgeEventTerminates := by
  induction evs with
  | nil => intro e; rfl
  | cons ev evs ih =>
    intro e
    cases ev with
    | tick n =>
      simp [periodicPurgeRun, periodicPurgeStep, purgeEventTerminates, ih]
    | stopSignal =>
      simp [periodicPurgeRun, periodicPurgeStep, purgeEventTerminates]
    | ctxCancel =>
      simp [periodicPurgeRun, periodicPurgeStep, purgeEventTerminates]

/-- Counterexample to claim C8 as stated: on the started engine
`testEngine`, whose `purgeDone` channel exists and is open,
`StoreEngine.Stop` succeeds yet leaves the channel exactly as open as
before — it only delegates to `Store.Stop`, and no code of the engine
ever closes `purgeDone` — so `Stop` does not fire the stop signal that
would end the task. -/
theorem stop_does_not_fire_stop_signal :
    testEngine.purgeDone = some false ∧
    (storeEngineStop testEngine).2 = none ∧
    (storeEngineStop testEngine).1.purgeDone = some false :=
  ⟨rfl, rfl, rfl⟩

/-- Claim C8 (amended): the purge task terminates exactly when the stop
signal fires or the context is cancelled, and a tick whose purge fails
(the error is only logged) never terminates it; `StoreEngine.Stop`
however does not fire the stop signal: it leaves the whole engine
state, `purgeDone` included, unchanged. -/
theorem periodicPurge_termination {V : Type} (e : StoreEngine V)
    (evs : List PurgeEvent) (now : Int) :
    (periodicPurgeRun e evs).2 = evs.any purgeEventTerminates ∧
    (periodicPurgeStep e (.tick now)).2 = false ∧
    (periodicPurgeStep e .stopSignal).2 = true ∧
    (periodicPurgeStep e .ctxCancel).2 = true ∧
    (storeEngineStop e).1 = e ∧
    (storeEngineStop e).2 = none :=
  ⟨periodicPurgeRun_any evs e, rfl, rfl, rfl, rfl, rfl⟩

/-- Claim C1: `GetSession` fails on a disabled engine and on an empty
id, leaving the engine untouched.  Otherwise, when the id is absent it
first stores the encoding `b` of the empty data mapping under the id,
reads it back, touches the id (entry `⟨b, now⟩` afterwards, so `Exists`
is true without any `SaveSession`), decodes it and returns the session
`{id, data := decode b, changed := false, destroyed := false}`; when
the id is present with entry `ent` it reads `ent.value`, touches the id
(value kept, clock set to `now`) and returns the session holding the
decoding of `ent.value`, again with `changed = false` and
`destroyed = false`. -/
theorem getSession_spec {V : Type} (now : Int) (e : StoreEngine V)
    (id : String) :
    (e.properties.enabled = false →
      storeEngineGetSession now e id = (e, .error "engine is disabled")) ∧
    (e.properties.enabled = true → id = "" →
      storeEngineGetSession now e id = (e, .error "session id is empty")) ∧
    (∀ b d, e.properties.enabled = true → id ≠ "" → e.store id = none →
      e.properties.encode [] = .ok b → e.properties.decode b = .ok d →
      storeEngineGetSession now e id =
        ({ e with store := msUpdate (msUpdate e.store id ⟨b, now⟩) id
                             ⟨b, now⟩ },
         .ok { id := id, changed := false, data := d, destroyed := false }) ∧
      (storeEngineGetSession now e id).1.store id = some ⟨b, now⟩ ∧
      (msExists (storeEngineGetSession now e id).1.store id).1 = true) ∧
    (∀ ent d, e.properties.enabled = true → id ≠ "" →
      e.store id = some ent → e.properties.decode ent.value = .ok d →
      storeEngineGetSession now e id =
        ({ e with store := msUpdate e.store id ⟨ent.value, now⟩ },
         .ok { id := id, changed := false, data := d,
               destroyed := false }) ∧
      (storeEngineGetSession now e id).1.store id =
        some ⟨ent.value, now⟩) := by
  refine ⟨?_, ?_, ?_, ?_⟩
  · intro h
    unfold storeEngineGetSession
    rw [if_pos h]
  · intro hen hid
    unfold storeEngineGetSession
    rw [if_neg (by simp [hen]), if_pos hid]
  · intro b d hen hid hnone henc hdec
    have hu1 : (msUpdate e.store id ⟨b, now⟩) id = some ⟨b, now⟩ := by
      simp [msUpdate]
    have hmain : storeEngineGetSession now e id =
        ({ e with store := msUpdate (msUpdate e.store id ⟨b, now⟩) id
                             ⟨b, now⟩ },
         .ok { id := id, changed := false, data := d,
               destroyed := false }) := by
      unfold storeEngineGetSession
      rw [if_neg (by simp [hen]), if_neg hid]
      simp only [msExists, hnone, Option.isSome_none]
      rw [henc]
      unfold getSessionRead
      simp only [msSet, msGet, msTouch, hu1]
      rw [hdec]
      simp
    refine ⟨hmain, ?_, ?_⟩
    · rw [hmain]
      simp [msUpdate]
    · rw [hmain]
      simp [msExists, msUpdate]
  · intro ent d hen hid hsome hdec
    have hmain : storeEngineGetSession now e id =
        ({ e with store := msUpdate e.store id ⟨ent.value, now⟩ },
         .ok { id := id, changed := false, data := d,
               destroyed := false }) := by
      unfold storeEngineGetSession
      rw [if_neg (by simp [hen]), if_neg hid]
      simp only [msExists, hsome, Option.isSome_some]
      unfold getSessionRead
      simp only [msGet, msTouch, hsome]
      rw [hdec]
      simp
    refine ⟨hmain, ?_⟩
    rw [hmain]
    simp [msUpdate]

/-- Witness for claim C1: on the concrete enabled engine, the disabled
engine, the empty id, a brand-new id `"new"` (created with the encoded
empty mapping, touched at time 5, visible to `Exists`) and the present
id `"foo"` — whose stored bytes `[0, 2]` decode as the test codec's
`[("", 2)]` — evaluated concretely. -/
theorem getSession_spec_witness :
    storeEngineGetSession 5 testEngineDisabled "new" =
      (testEngineDisabled, .error "engine is disabled") ∧
    storeEngineGetSession 5 testEngine "" =
      (testEngine, .error "session id is empty") ∧
    (storeEngineGetSession 5 testEngine "new").2 =
      .ok { id := "new", changed := false, data := ([] : List (String × Nat)),
            destroyed := false } ∧
    (storeEngineGetSession 5 testEngine "new").1.store "new" =
      some ⟨[], 5⟩ ∧
    (msExists (storeEngineGetSession 5 testEngine "new").1.store "new").1 =
      true ∧
    (storeEngineGetSession 5 testEngine "foo").2 =
      .ok { id := "foo", changed := false, data := [("", 2)],
            destroyed := false } ∧
    (storeEngineGetSession 5 testEngine "foo").1.store "foo" =
      some ⟨[0, 2], 5⟩ := by
  have hdis := (getSession_spec 5 testEngineDisabled "new").1 (by decide)
  have hempty := (getSession_spec 5 testEngine "").2.1 (by decide) rfl
  have hnew := (getSession_spec 5 testEngine "new").2.2.1 [] []
    (by decide) (by decide) (by decide) (by rfl) (by rfl)
  have hfoo := (getSession_spec 5 testEngine "foo").2.2.2 ⟨[0, 2], 0⟩
    [("", 2)] (by decide) (by decide) (by decide) (by rfl)
  refine ⟨hdis, hempty, ?_, hnew.2.1, hnew.2.2, ?_, hfoo.2⟩
  · rw [hnew.1]
  · rw [hfoo.1]

end Httpok
